import Mathlib

/-!
Shallow embedding of the BTC trend engine (btc_trend_server.py): per-currency
quote cache with TTL, bounded price history, synthetic backfill, SMA
computation, threshold signal classifier, and the request orchestrator
get_btc_trend_signal.

Modelling conventions:
* Python floats are modelled as rationals; machine rounding is out of scope.
* Every call to time.time() is an explicit parameter (tGet, tSet, tApp, tSim,
  tWin, in the order the source reads the clock).
* random.gauss draws are an explicit stream shocks : Nat -> Rat; the drift and
  volatility computed by the source only parameterise the distribution of the
  draws, so they are absorbed into the stream.
* The outcome of the HTTP fetch _fetch_cmc_btc_spot is an explicit parameter
  (Except String Quote); the error payload is abstracted to a String and is
  propagated verbatim.
* Dictionaries keyed by currency become total functions with default values
  (setdefault in the source makes the default explicit).
-/

namespace BtcTrend

/-- One history point: {ts, price} dict in the source. -/
structure HistPoint where
  ts : ℚ
  price : ℚ
deriving DecidableEq, Repr

/-- The fields of a successful quote dict that the engine reads
(price and percent_change_24h); provenance strings are not read back. -/
structure Quote where
  price : ℚ
  percent_change_24h : ℚ
deriving DecidableEq, Repr

/-- A cache entry: {ts, data} in the source. -/
structure CacheEntry where
  ts : ℚ
  data : Quote
deriving DecidableEq, Repr

/-- _CACHE: one optional entry per key. -/
def CacheMap : Type := String → Option CacheEntry

/-- _HISTORY: a list of points per key, defaulting to the empty list. -/
def HistMap : Type := String → List HistPoint

/-- CACHE_TTL_SECONDS = 10. -/
def CACHE_TTL_SECONDS : ℚ := 10

/-- _HISTORY_MAX = 1000. -/
def HISTORY_MAX : ℕ := 1000

/-- _get_cached: returns the data unless the entry is absent or older than the
TTL at read time. -/
def _get_cached (key : String) (now : ℚ) (c : CacheMap) : Option Quote :=
  match c key with
  | none => none
  | some entry => if now - entry.ts > CACHE_TTL_SECONDS then none else some entry.data

/-- _set_cached: overwrites the single entry for the key with {ts := now, data}. -/
def _set_cached (key : String) (data : Quote) (now : ℚ) (c : CacheMap) : CacheMap :=
  fun k => if k = key then some ⟨now, data⟩ else c k

/-- _append_history: append {ts, price} at the tail, then trim from the head
when the length exceeds _HISTORY_MAX. -/
def _append_history (vs : String) (price : ℚ) (ts : ℚ) (h : HistMap) : HistMap :=
  let hist := h vs ++ [⟨ts, price⟩]
  let hist2 := if hist.length > HISTORY_MAX then hist.drop (hist.length - HISTORY_MAX) else hist
  fun k => if k = vs then hist2 else h k

/-- The synthetic-point loop of _ensure_history_for_windows:
for i in range(to_add, 0, -1): t = now - i*60; base *= (1 + shock); append.
The fuel argument is the current value of i; k indexes the gauss stream. -/
def synLoop : ℕ → ℚ → ℚ → (ℕ → ℚ) → ℕ → List HistPoint
  | 0, _, _, _, _ => []
  | i + 1, now, base, shocks, k =>
      let base2 := base * (1 + shocks k)
      ⟨now - (i + 1 : ℕ) * 60, base2⟩ :: synLoop i now base2 shocks (k + 1)

/-- _ensure_history_for_windows: no-op when enough points exist or simulation
is not permitted; otherwise prepend a synthetic run of target_points - have
points spaced one simulated minute apart, then trim from the head to
_HISTORY_MAX.  Returns (number of synthetic points added, new history map). -/
def _ensure_history_for_windows (vs : String) (target_points : ℤ)
    (current_price : ℚ) (_pct_24h_bias : ℚ) (simulate_if_needed : Bool)
    (shocks : ℕ → ℚ) (now : ℚ) (h : HistMap) : ℤ × HistMap :=
  let hist := h vs
  let haveN : ℤ := hist.length
  if haveN ≥ target_points ∨ simulate_if_needed = false then (0, h)
  else
    let toAdd : ℕ := (target_points - haveN).toNat
    let basePrice := match hist with
      | [] => current_price
      | p :: _ => p.price
    let synthetic := synLoop toAdd now basePrice shocks 0
    let newHist := synthetic ++ hist
    let newHist2 :=
      if newHist.length > HISTORY_MAX then newHist.drop (newHist.length - HISTORY_MAX)
      else newHist
    ((toAdd : ℤ), fun k => if k = vs then newHist2 else h k)

/-- _sma: raises (models as .error) unless 0 < window <= len(values); otherwise
the arithmetic mean of the last window elements. -/
def _sma (values : List ℚ) (window : ℤ) : Except String ℚ :=
  if window ≤ 0 ∨ window > (values.length : ℤ) then
    Except.error "window must be in 1..len(values)"
  else
    Except.ok ((values.drop (values.length - window.toNat)).sum / (window : ℚ))

/-- The three signal labels. -/
inductive Signal where
  | bullish
  | bearish
  | neutral
deriving DecidableEq, Repr

/-- The content of the rationale string: either the invalid-long-SMA guard
message or the report of both SMAs, the spread and the threshold. -/
inductive Rationale where
  | invalidLongSMA
  | spreadReport (shortSMA longSMA spreadBps thresholdBps : ℚ)
deriving DecidableEq, Repr

/-- Result of _signal_from_sma: {signal, ratio_bps, rationale}. -/
structure SigOut where
  signal : Signal
  ratio_bps : ℚ
  rationale : Rationale
deriving DecidableEq, Repr

/-- Round to the nearest integer, ties to even (the rounding of Python round). -/
def rndHalfEven (x : ℚ) : ℤ :=
  let f := ⌊x⌋
  let r := x - f
  if r < 1 / 2 then f
  else if 1 / 2 < r then f + 1
  else if f % 2 = 0 then f
  else f + 1

/-- round(x, 2) of the source. -/
def round2 (x : ℚ) : ℚ := (rndHalfEven (x * 100) : ℚ) / 100

/-- _signal_from_sma: guard on long_sma <= 0, otherwise classify the rounded
basis-point spread with strict comparisons against the threshold. -/
def _signal_from_sma (short_sma long_sma threshold_bps : ℚ) : SigOut :=
  if long_sma ≤ 0 then ⟨Signal.neutral, 0, Rationale.invalidLongSMA⟩
  else
    let ratio := (short_sma - long_sma) / long_sma
    let ratio_bps := round2 (ratio * 10000)
    let thr := threshold_bps
    let sig := if ratio_bps > thr then Signal.bullish
      else if ratio_bps < -thr then Signal.bearish
      else Signal.neutral
    ⟨sig, ratio_bps, Rationale.spreadReport short_sma long_sma ratio_bps thr⟩

/-- Structured result of get_btc_trend_signal: either one of the error dicts
or the success dict (with the note field modelled by synthetic_added, the
count it reports). -/
structure TrendOutput where
  price : ℚ
  sma_short : ℚ
  sma_long : ℚ
  signal : Signal
  ratio_bps : ℚ
  threshold_bps : ℚ
  points_used : ℕ
  synthetic_added : ℤ
deriving DecidableEq, Repr

/-- The possible results of get_btc_trend_signal. -/
inductive TrendOut where
  | invalid_window
  | invalid_window_order
  | fetch_error (e : String)
  | insufficient_history (need : ℤ) (haveN : ℕ)
  | sma_error (msg : String)
  | ok (out : TrendOutput)
deriving DecidableEq, Repr

/-- The shared mutable state of the engine: _CACHE and _HISTORY. -/
structure EngineState where
  cache : CacheMap
  history : HistMap

/-- One run of get_btc_trend_signal: the returned dict, the state after the
run, and whether _fetch_cmc_btc_spot was invoked. -/
structure RunOut where
  result : TrendOut
  state : EngineState
  fetchCalled : Bool

/-- Steps 6 and 7 of get_btc_trend_signal: compute both SMAs over the windowed
slice (returning sma_error if either raises) and classify. -/
def _compute_and_classify (prices : List ℚ) (short_window long_window : ℤ)
    (neutral_threshold_bps : ℚ) (price : ℚ) (added : ℤ) : TrendOut :=
  match _sma prices short_window, _sma prices long_window with
  | Except.error e, _ => TrendOut.sma_error e
  | Except.ok _, Except.error e => TrendOut.sma_error e
  | Except.ok sma_short, Except.ok sma_long =>
      let sig := _signal_from_sma sma_short sma_long neutral_threshold_bps
      TrendOut.ok ⟨price, round2 sma_short, round2 sma_long, sig.signal,
        sig.ratio_bps, neutral_threshold_bps, prices.length, added⟩

/-- Steps 2 to 7 of get_btc_trend_signal, entered once a quote is at hand
(lookback already clamped): append the live price, conditionally backfill,
select the lookback window, compute both SMAs, classify. -/
def _trend_after_quote (vs : String) (lookback short_window long_window : ℤ)
    (neutral_threshold_bps : ℚ) (simulate_if_needed : Bool) (shocks : ℕ → ℚ)
    (tApp tSim tWin : ℚ) (spot : Quote) (cache : CacheMap) (history : HistMap)
    (fetchCalled : Bool) : RunOut :=
  let price := spot.price
  let pct_24h := spot.percent_change_24h
  let hist1 := _append_history vs price tApp history
  let target_points := max long_window (min lookback (HISTORY_MAX : ℤ))
  let step3 := _ensure_history_for_windows vs target_points price pct_24h
    simulate_if_needed shocks tSim hist1
  let added := step3.1
  let hist2 := step3.2
  let hist := hist2 vs
  let cutoff_ts := tWin - lookback * 60
  let recent := hist.filter (fun p => decide (p.ts ≥ cutoff_ts))
  let result :=
    if (recent.length : ℤ) < long_window then
      TrendOut.insufficient_history long_window recent.length
    else
      _compute_and_classify (recent.map (fun p => p.price)) short_window
        long_window neutral_threshold_bps price added
  ⟨result, ⟨cache, hist2⟩, fetchCalled⟩

/-- get_btc_trend_signal: validation, clamping, quoting through the cache
(calling the fetch collaborator on a miss), then the post-quote pipeline. -/
def get_btc_trend_signal (vs_currency : String)
    (lookback_minutes short_window long_window : ℤ)
    (neutral_threshold_bps : ℚ) (simulate_if_needed : Bool)
    (fetch : Except String Quote) (shocks : ℕ → ℚ)
    (tGet tSet tApp tSim tWin : ℚ) (st : EngineState) : RunOut :=
  if short_window ≤ 0 ∨ long_window ≤ 0 then ⟨TrendOut.invalid_window, st, false⟩
  else if short_window ≥ long_window then ⟨TrendOut.invalid_window_order, st, false⟩
  else
    let lookback := max 5 (min lookback_minutes 1440)
    let vs := vs_currency.toUpper
    let cache_key := "btc:" ++ vs
    match _get_cached cache_key tGet st.cache with
    | none =>
        match fetch with
        | Except.error e => ⟨TrendOut.fetch_error e, st, true⟩
        | Except.ok spot =>
            _trend_after_quote vs lookback short_window long_window
              neutral_threshold_bps simulate_if_needed shocks tApp tSim tWin
              spot (_set_cached cache_key spot tSet st.cache) st.history true
    | some spot =>
        _trend_after_quote vs lookback short_window long_window
          neutral_threshold_bps simulate_if_needed shocks tApp tSim tWin
          spot st.cache st.history false

/-- The quote the orchestrator ends up using: the cached one on a hit,
otherwise the fetch outcome (none when the fetch failed).  Convenience
accessor for stating theorems about the quoting step. -/
def resolvedQuote (key : String) (tGet : ℚ) (c : CacheMap)
    (fetch : Except String Quote) : Option Quote :=
  match _get_cached key tGet c with
  | some q => some q
  | none => fetch.toOption

/-- The backfill target as the specification words it:
max(long_window, min(clamp(lookback_minutes, 5, 1440), MAX_POINTS)). -/
def targetPointsSpec (lookback_minutes long_window : ℤ) : ℤ :=
  max long_window (min (max 5 (min lookback_minutes 1440)) (HISTORY_MAX : ℤ))

/-- Chronological check on a series: consecutive timestamps non-decreasing. -/
def chronologicalB : List HistPoint → Bool
  | [] => true
  | [_] => true
  | a :: b :: rest => (decide (a.ts ≤ b.ts)) && chronologicalB (b :: rest)

/-- The last window elements of a list, written independently of _sma. -/
def lastSlice (values : List ℚ) (k : ℕ) : List ℚ :=
  (values.reverse.take k).reverse

theorem drop_eq_lastSlice (values : List ℚ) (k : ℕ) :
    values.drop (values.length - k) = lastSlice values k := by
  unfold lastSlice
  rw [List.reverse_take]
  simp

/-- Claim C2: _sma fails exactly when window <= 0 or window > len(values), and
on 0 < window <= len(values) it returns the arithmetic mean of the last
window elements. -/
theorem sma_spec (values : List ℚ) (window : ℤ) :
    ((window ≤ 0 ∨ window > (values.length : ℤ)) →
        _sma values window = Except.error "window must be in 1..len(values)") ∧
    (0 < window → window ≤ (values.length : ℤ) →
        _sma values window =
          Except.ok ((lastSlice values window.toNat).sum / (window : ℚ))) := by
  constructor
  · intro h
    unfold _sma
    rw [if_pos h]
  · intro h1 h2
    unfold _sma
    rw [if_neg (by omega)]
    rw [drop_eq_lastSlice values window.toNat]

/-- Witness for sma_spec at values = [100, 101, 102, 103], window = 2. -/
theorem sma_spec_witness :
    (0 : ℤ) < 2 ∧ (2 : ℤ) ≤ (([100, 101, 102, 103] : List ℚ).length : ℤ) ∧
      _sma [100, 101, 102, 103] 2 =
        Except.ok ((lastSlice [100, 101, 102, 103] (2 : ℤ).toNat).sum / (2 : ℚ)) :=
  ⟨by decide, by decide,
    (sma_spec [100, 101, 102, 103] 2).2 (by decide) (by decide)⟩

/-- Claim C3: for positive long SMA the classifier reports the rounded
basis-point spread and compares it strictly against the threshold. -/
theorem signal_strict (short_sma long_sma threshold_bps : ℚ) (h : 0 < long_sma) :
    (_signal_from_sma short_sma long_sma threshold_bps).ratio_bps
        = round2 ((short_sma - long_sma) / long_sma * 10000) ∧
    (_signal_from_sma short_sma long_sma threshold_bps).signal =
      (if round2 ((short_sma - long_sma) / long_sma * 10000) > threshold_bps then
        Signal.bullish
      else if round2 ((short_sma - long_sma) / long_sma * 10000) < -threshold_bps then
        Signal.bearish
      else Signal.neutral) := by
  unfold _signal_from_sma
  rw [if_neg (not_le.mpr h)]
  exact ⟨rfl, rfl⟩

theorem round2_200 : round2 200 = 200 := by
  unfold round2 rndHalfEven
  norm_num

/-- Witness for signal_strict: short = 102, long = 100, threshold 200 bps gives
spread exactly 200 bps and label neutral. -/
theorem signal_strict_witness :
    (0 : ℚ) < 100 ∧ (_signal_from_sma 102 100 200).signal = Signal.neutral ∧
      (_signal_from_sma 102 100 200).ratio_bps = 200 := by
  have harg : ((102 : ℚ) - 100) / 100 * 10000 = 200 := by norm_num
  have h := signal_strict 102 100 200 (by norm_num)
  rw [harg, round2_200] at h
  refine ⟨by norm_num, ?_, h.1⟩
  rw [h.2]
  rw [if_neg (by norm_num), if_neg (by norm_num)]

/-- Claim C4: a get after a put hits while at most TTL seconds have elapsed,
misses strictly after, and a put fully overwrites the single entry of its key. -/
theorem cache_ttl (c : CacheMap) (key : String) (data : Quote) (tPut tGet : ℚ) :
    (tGet - tPut ≤ CACHE_TTL_SECONDS →
        _get_cached key tGet (_set_cached key data tPut c) = some data) ∧
    (tGet - tPut > CACHE_TTL_SECONDS →
        _get_cached key tGet (_set_cached key data tPut c) = none) ∧
    (∀ d2 t2, _set_cached key d2 t2 (_set_cached key data tPut c)
        = _set_cached key d2 t2 c) := by
  refine ⟨?_, ?_, ?_⟩
  · intro h
    simp [_get_cached, _set_cached, not_lt.mpr h]
  · intro h
    simp [_get_cached, _set_cached, h]
  · intro d2 t2
    funext k
    unfold _set_cached
    by_cases hk : k = key
    · simp [hk]
    · simp [hk]

/-- Witness for cache_ttl: a put at time 0 read at time 5 hits, read at
time 20 misses. -/
theorem cache_ttl_witness :
    ((5 : ℚ) - 0 ≤ CACHE_TTL_SECONDS ∧
      _get_cached "btc:USD" 5
        (_set_cached "btc:USD" ⟨100, 0⟩ 0 (fun _ => none)) = some ⟨100, 0⟩) ∧
    ((20 : ℚ) - 0 > CACHE_TTL_SECONDS ∧
      _get_cached "btc:USD" 20
        (_set_cached "btc:USD" ⟨100, 0⟩ 0 (fun _ => none)) = none) :=
  ⟨⟨by norm_num [CACHE_TTL_SECONDS],
      (cache_ttl (fun _ => none) "btc:USD" ⟨100, 0⟩ 0 5).1
        (by norm_num [CACHE_TTL_SECONDS])⟩,
    ⟨by norm_num [CACHE_TTL_SECONDS],
      (cache_ttl (fun _ => none) "btc:USD" ⟨100, 0⟩ 0 20).2.1
        (by norm_num [CACHE_TTL_SECONDS])⟩⟩

/-- Claim C8: with non-positive long SMA the classifier returns neutral with
spread 0 and the invalid-long-SMA rationale, whatever the short SMA and
threshold. -/
theorem classifier_guard (short_sma threshold_bps long_sma : ℚ)
    (h : long_sma ≤ 0) :
    _signal_from_sma short_sma long_sma threshold_bps
      = ⟨Signal.neutral, 0, Rationale.invalidLongSMA⟩ := by
  unfold _signal_from_sma
  rw [if_pos h]

/-- Witness for classifier_guard at short SMA 12345, long SMA 0. -/
theorem classifier_guard_witness :
    (0 : ℚ) ≤ 0 ∧ _signal_from_sma 12345 0 25
      = ⟨Signal.neutral, 0, Rationale.invalidLongSMA⟩ :=
  ⟨le_refl 0, classifier_guard 12345 25 0 (le_refl 0)⟩

/-- Claim C5: invalid windows are rejected with the state untouched and the
fetch never invoked; a failed fetch propagates its error verbatim with cache
and history untouched. -/
theorem validation_and_fetch_failure (vs_currency : String)
    (lookback_minutes short_window long_window : ℤ)
    (neutral_threshold_bps : ℚ) (simulate_if_needed : Bool)
    (fetch : Except String Quote) (shocks : ℕ → ℚ)
    (tGet tSet tApp tSim tWin : ℚ) (st : EngineState) :
    (short_window ≤ 0 ∨ long_window ≤ 0 →
      get_btc_trend_signal vs_currency lookback_minutes short_window long_window
          neutral_threshold_bps simulate_if_needed fetch shocks
          tGet tSet tApp tSim tWin st
        = ⟨TrendOut.invalid_window, st, false⟩) ∧
    (0 < short_window → 0 < long_window → short_window ≥ long_window →
      get_btc_trend_signal vs_currency lookback_minutes short_window long_window
          neutral_threshold_bps simulate_if_needed fetch shocks
          tGet tSet tApp tSim tWin st
        = ⟨TrendOut.invalid_window_order, st, false⟩) ∧
    (∀ e, 0 < short_window → short_window < long_window →
      _get_cached ("btc:" ++ vs_currency.toUpper) tGet st.cache = none →
      fetch = Except.error e →
      get_btc_trend_signal vs_currency lookback_minutes short_window long_window
          neutral_threshold_bps simulate_if_needed fetch shocks
          tGet tSet tApp tSim tWin st
        = ⟨TrendOut.fetch_error e, st, true⟩) := by
  refine ⟨?_, ?_, ?_⟩
  · intro h
    unfold get_btc_trend_signal
    rw [if_pos h]
  · intro h1 h2 h3
    unfold get_btc_trend_signal
    rw [if_neg (by omega), if_pos h3]
  · intro e h1 h2 hmiss hfetch
    subst hfetch
    unfold get_btc_trend_signal
    rw [if_neg (by omega), if_neg (by omega)]
    simp only [hmiss]

/-- Witness for validation_and_fetch_failure: the spec scenario
short_window = 10, long_window = 5 is rejected with no fetch, and a failing
fetch on an empty cache is propagated verbatim. -/
theorem validation_and_fetch_failure_witness :
    ((10 : ℤ) ≥ 5 ∧
      get_btc_trend_signal "USD" 60 10 5 25 true (Except.ok ⟨100, 0⟩) (fun _ => 0)
          0 0 0 0 0 ⟨fun _ => none, fun _ => []⟩
        = ⟨TrendOut.invalid_window_order, ⟨fun _ => none, fun _ => []⟩, false⟩) ∧
    (_get_cached ("btc:" ++ "USD".toUpper) 0 (fun _ => none) = none ∧
      get_btc_trend_signal "USD" 60 5 20 25 true (Except.error "http_500") (fun _ => 0)
          0 0 0 0 0 ⟨fun _ => none, fun _ => []⟩
        = ⟨TrendOut.fetch_error "http_500", ⟨fun _ => none, fun _ => []⟩, true⟩) :=
  ⟨⟨by norm_num,
      (validation_and_fetch_failure "USD" 60 10 5 25 true (Except.ok ⟨100, 0⟩)
        (fun _ => 0) 0 0 0 0 0 ⟨fun _ => none, fun _ => []⟩).2.1
          (by norm_num) (by norm_num) (by norm_num)⟩,
    ⟨rfl,
      (validation_and_fetch_failure "USD" 60 5 20 25 true (Except.error "http_500")
        (fun _ => 0) 0 0 0 0 0 ⟨fun _ => none, fun _ => []⟩).2.2 "http_500"
          (by norm_num) (by norm_num) rfl rfl⟩⟩

/-- Claim C7: after validation and quoting, the history the run leaves behind
is exactly the backfill applied to the appended series with target
max(long_window, min(clamp(lookback, 5, 1440), MAX_POINTS)); and the backfill
is a no-op returning 0 whenever enough points exist or simulation is not
permitted. -/
theorem backfill_target_and_noop :
    (∀ (vs_currency : String) (lookback_minutes short_window long_window : ℤ)
        (neutral_threshold_bps : ℚ) (simulate_if_needed : Bool)
        (fetch : Except String Quote) (shocks : ℕ → ℚ)
        (tGet tSet tApp tSim tWin : ℚ) (st : EngineState) (spot : Quote),
      0 < short_window → short_window < long_window →
      resolvedQuote ("btc:" ++ vs_currency.toUpper) tGet st.cache fetch = some spot →
      (get_btc_trend_signal vs_currency lookback_minutes short_window long_window
          neutral_threshold_bps simulate_if_needed fetch shocks
          tGet tSet tApp tSim tWin st).state.history
        = (_ensure_history_for_windows vs_currency.toUpper
            (targetPointsSpec lookback_minutes long_window)
            spot.price spot.percent_change_24h simulate_if_needed shocks tSim
            (_append_history vs_currency.toUpper spot.price tApp st.history)).2) ∧
    (∀ (vs : String) (target_points : ℤ) (current_price pct : ℚ)
        (simulate_if_needed : Bool) (shocks : ℕ → ℚ) (now : ℚ) (h : HistMap),
      (((h vs).length : ℤ) ≥ target_points ∨ simulate_if_needed = false) →
      _ensure_history_for_windows vs target_points current_price pct
          simulate_if_needed shocks now h = (0, h)) := by
  constructor
  · intro vs_currency lookback_minutes short_window long_window thr simulate
      fetch shocks tGet tSet tApp tSim tWin st spot h1 h2 hres
    unfold get_btc_trend_signal
    rw [if_neg (by omega), if_neg (by omega)]
    unfold resolvedQuote at hres
    cases hget : _get_cached ("btc:" ++ vs_currency.toUpper) tGet st.cache with
    | none =>
        rw [hget] at hres
        cases fetch with
        | error e => simp [Except.toOption] at hres
        | ok q =>
            simp only [Except.toOption, Option.some.injEq] at hres
            subst hres
            simp only [hget]
            rfl
    | some q =>
        rw [hget] at hres
        simp only [Option.some.injEq] at hres
        subst hres
        simp only [hget]
        rfl
  · intro vs target_points current_price pct simulate shocks now h hcond
    unfold _ensure_history_for_windows
    rw [if_pos hcond]

/-- Witness for backfill_target_and_noop: a run with simulation off leaves the
history equal to the backfill of the appended series at the spec target, and
the backfill on target 0 is a no-op. -/
theorem backfill_target_and_noop_witness :
    (resolvedQuote ("btc:" ++ "USD".toUpper) 0 (fun _ => none)
        (Except.ok ⟨100, 0⟩) = some ⟨100, 0⟩ ∧
      (get_btc_trend_signal "USD" 60 5 20 25 false (Except.ok ⟨100, 0⟩)
          (fun _ => 0) 0 0 0 0 0 ⟨fun _ => none, fun _ => []⟩).state.history
        = (_ensure_history_for_windows "USD".toUpper (targetPointsSpec 60 20)
            100 0 false (fun _ => 0) 0
            (_append_history "USD".toUpper 100 0 (fun _ => []))).2) ∧
    ((((fun _ => [] : HistMap) "EUR").length : ℤ) ≥ 0 ∧
      _ensure_history_for_windows "EUR" 0 100 0 true (fun _ => 0) 0 (fun _ => [])
        = (0, fun _ => [])) :=
  ⟨⟨rfl,
      backfill_target_and_noop.1 "USD" 60 5 20 25 false (Except.ok ⟨100, 0⟩)
        (fun _ => 0) 0 0 0 0 0 ⟨fun _ => none, fun _ => []⟩ ⟨100, 0⟩
        (by norm_num) (by norm_num) rfl⟩,
    ⟨by norm_num,
      backfill_target_and_noop.2 "EUR" 0 100 0 true (fun _ => 0) 0 (fun _ => [])
        (Or.inl (by norm_num))⟩⟩

theorem sma_ok_of_le (values : List ℚ) (w : ℤ) (h1 : 0 < w)
    (h2 : w ≤ (values.length : ℤ)) : ∃ q, _sma values w = Except.ok q := by
  unfold _sma
  rw [if_neg (by omega)]
  exact ⟨_, rfl⟩

theorem compute_and_classify_no_error (prices : List ℚ)
    (short_window long_window : ℤ) (thr price : ℚ) (added : ℤ) (msg : String)
    (h1 : 0 < short_window) (h2 : short_window < long_window)
    (hlen : long_window ≤ (prices.length : ℤ)) :
    _compute_and_classify prices short_window long_window thr price added
      ≠ TrendOut.sma_error msg := by
  unfold _compute_and_classify
  obtain ⟨qs, hqs⟩ := sma_ok_of_le prices short_window h1 (by omega)
  obtain ⟨ql, hql⟩ := sma_ok_of_le prices long_window (by omega) hlen
  rw [hqs, hql]
  simp

theorem trend_after_quote_no_sma_error (vs : String)
    (lookback short_window long_window : ℤ) (thr : ℚ) (simulate : Bool)
    (shocks : ℕ → ℚ) (tApp tSim tWin : ℚ) (spot : Quote) (cache : CacheMap)
    (history : HistMap) (called : Bool) (msg : String)
    (h1 : 0 < short_window) (h2 : short_window < long_window) :
    (_trend_after_quote vs lookback short_window long_window thr simulate shocks
        tApp tSim tWin spot cache history called).result
      ≠ TrendOut.sma_error msg := by
  simp only [_trend_after_quote]
  split
  · simp
  · rename_i hlen
    apply compute_and_classify_no_error _ _ _ _ _ _ _ h1 h2
    rw [List.length_map]
    omega

/-- Claim C9: the sma_error branch of get_btc_trend_signal is unreachable:
no run ever returns it. -/
theorem sma_error_unreachable (vs_currency : String)
    (lookback_minutes short_window long_window : ℤ)
    (neutral_threshold_bps : ℚ) (simulate_if_needed : Bool)
    (fetch : Except String Quote) (shocks : ℕ → ℚ)
    (tGet tSet tApp tSim tWin : ℚ) (st : EngineState) (msg : String) :
    (get_btc_trend_signal vs_currency lookback_minutes short_window long_window
        neutral_threshold_bps simulate_if_needed fetch shocks
        tGet tSet tApp tSim tWin st).result ≠ TrendOut.sma_error msg := by
  unfold get_btc_trend_signal
  by_cases h1 : short_window ≤ 0 ∨ long_window ≤ 0
  · rw [if_pos h1]
    simp
  rw [if_neg h1]
  by_cases h2 : short_window ≥ long_window
  · rw [if_pos h2]
    simp
  rw [if_neg h2]
  cases hget : _get_cached ("btc:" ++ vs_currency.toUpper) tGet st.cache with
  | none =>
      simp only [hget]
      cases fetch with
      | error e => simp
      | ok spot =>
          exact trend_after_quote_no_sma_error _ _ _ _ _ _ _ _ _ _ _ _ _ _ msg
            (by omega) (by omega)
  | some spot =>
      simp only [hget]
      exact trend_after_quote_no_sma_error _ _ _ _ _ _ _ _ _ _ _ _ _ _ msg
        (by omega) (by omega)

/-- Claim C1 fails on the code: appending one real point at time 0 and then
backfilling at time 7200 prepends a synthetic point with timestamp 7140 in
front of the point with timestamp 0, so the series is no longer in
non-decreasing timestamp order (lengths and head-trimming stay within the cap,
but the chronological invariant is broken). -/
theorem history_order_violation :
    (_ensure_history_for_windows "USD" 2 100 0 true (fun _ => 0) 7200
        (_append_history "USD" 100 0 (fun _ => []))).2 "USD"
      = [⟨7140, 100⟩, ⟨0, 100⟩] ∧
    chronologicalB ((_ensure_history_for_windows "USD" 2 100 0 true (fun _ => 0)
        7200 (_append_history "USD" 100 0 (fun _ => []))).2 "USD") = false := by
  have h : (_ensure_history_for_windows "USD" 2 100 0 true (fun _ => 0) 7200
      (_append_history "USD" 100 0 (fun _ => []))).2 "USD"
        = [⟨7140, 100⟩, ⟨0, 100⟩] := by
    norm_num [_ensure_history_for_windows, _append_history, synLoop, HISTORY_MAX]
  refine ⟨h, ?_⟩
  rw [h]
  norm_num [chronologicalB]

theorem synLoop_length (now : ℚ) (shocks : ℕ → ℚ) :
    ∀ (i : ℕ) (base : ℚ) (k : ℕ), (synLoop i now base shocks k).length = i
  | 0, _, _ => rfl
  | i + 1, base, k => by
      simp only [synLoop, List.length_cons]
      rw [synLoop_length now shocks i _ (k + 1)]

theorem synLoop_ts_mem (now : ℚ) (shocks : ℕ → ℚ) :
    ∀ (i : ℕ) (base : ℚ) (k : ℕ) (p : HistPoint),
      p ∈ synLoop i now base shocks k →
      ∃ j : ℕ, 1 ≤ j ∧ j ≤ i ∧ p.ts = now - (j : ℚ) * 60
  | 0, _, _, _, hp => absurd hp (List.not_mem_nil _)
  | i + 1, base, k, p, hp => by
      simp only [synLoop, List.mem_cons] at hp
      cases hp with
      | inl h => exact ⟨i + 1, by omega, le_refl _, by rw [h]⟩
      | inr h =>
          obtain ⟨j, hj1, hj2, hj3⟩ := synLoop_ts_mem now shocks i _ (k + 1) p h
          exact ⟨j, hj1, by omega, hj3⟩

theorem synLoop_chain (now : ℚ) (shocks : ℕ → ℚ) :
    ∀ (i : ℕ) (base : ℚ) (k : ℕ),
      (synLoop i now base shocks k).Chain' (fun a b => b.ts = a.ts + 60)
  | 0, _, _ => List.chain'_nil
  | 1, base, k => by simp [synLoop]
  | i + 2, base, k => by
      have IH := synLoop_chain now shocks (i + 1) (base * (1 + shocks k)) (k + 1)
      simp only [synLoop] at IH ⊢
      refine List.chain'_cons.mpr ⟨?_, IH⟩
      push_cast
      ring

theorem synLoop_pairwise (now : ℚ) (shocks : ℕ → ℚ) (i : ℕ) (base : ℚ) (k : ℕ) :
    (synLoop i now base shocks k).Pairwise (fun a b => a.ts < b.ts) := by
  have hc : (synLoop i now base shocks k).Chain' (fun a b => a.ts < b.ts) :=
    (synLoop_chain now shocks i base k).imp (fun a b hab => by rw [hab]; linarith)
  exact (@List.chain'_iff_pairwise HistPoint (fun a b => a.ts < b.ts)
    ⟨fun a b c hab hbc => lt_trans hab hbc⟩ _).mp hc

theorem ensure_empty_eq (vs : String) (T : ℤ) (price pct now : ℚ)
    (shocks : ℕ → ℚ) (h : HistMap) (hempty : h vs = []) (hT : 0 < T) :
    _ensure_history_for_windows vs T price pct true shocks now h
      = ((T.toNat : ℤ), fun k => if k = vs then
          (if (synLoop T.toNat now price shocks 0).length > HISTORY_MAX then
            (synLoop T.toNat now price shocks 0).drop
              ((synLoop T.toNat now price shocks 0).length - HISTORY_MAX)
          else synLoop T.toNat now price shocks 0) else h k) := by
  unfold _ensure_history_for_windows
  rw [hempty]
  have hg : ¬ (((([] : List HistPoint).length : ℤ) ≥ T) ∨ (true = false)) := by
    simp
    omega
  rw [if_neg hg]
  simp only [List.length_nil, Nat.cast_zero, sub_zero, List.append_nil]

set_option maxRecDepth 4000 in
/-- Claim C6: backfilling an empty series with target T > 0 and simulation
permitted reports T synthesized points and leaves a series of length
min(T, MAX_POINTS) whose timestamps are strictly increasing, all at most now,
consecutive points exactly 60 simulated seconds apart. -/
theorem backfill_empty_series (vs : String) (T : ℤ) (price pct now : ℚ)
    (shocks : ℕ → ℚ) (h : HistMap) (hempty : h vs = []) (hT : 0 < T) :
    (_ensure_history_for_windows vs T price pct true shocks now h).1 = T ∧
    ((_ensure_history_for_windows vs T price pct true shocks now h).2 vs).length
        = min T.toNat HISTORY_MAX ∧
    ((_ensure_history_for_windows vs T price pct true shocks now h).2 vs).Pairwise
        (fun a b => a.ts < b.ts) ∧
    (∀ p ∈ (_ensure_history_for_windows vs T price pct true shocks now h).2 vs,
        p.ts ≤ now) ∧
    ((_ensure_history_for_windows vs T price pct true shocks now h).2 vs).Chain'
        (fun a b => b.ts = a.ts + 60) := by
  rw [ensure_empty_eq vs T price pct now shocks h hempty hT]
  simp only [if_pos rfl]
  have hslen : (synLoop T.toNat now price shocks 0).length = T.toNat :=
    synLoop_length now shocks T.toNat price 0
  have hsub : ∀ X : List HistPoint,
      X = (if (synLoop T.toNat now price shocks 0).length > HISTORY_MAX then
        (synLoop T.toNat now price shocks 0).drop
          ((synLoop T.toNat now price shocks 0).length - HISTORY_MAX)
      else synLoop T.toNat now price shocks 0) →
      X.Sublist (synLoop T.toNat now price shocks 0) ∧
        X <:+ (synLoop T.toNat now price shocks 0) ∧
        X.length = min T.toNat HISTORY_MAX := by
    intro X hX
    by_cases hc : (synLoop T.toNat now price shocks 0).length > HISTORY_MAX
    · rw [if_pos hc] at hX
      rw [hX]
      refine ⟨List.drop_sublist _ _, List.drop_suffix _ _, ?_⟩
      rw [List.length_drop, hslen]
      rw [hslen] at hc
      omega
    · rw [if_neg hc] at hX
      rw [hX]
      refine ⟨List.Sublist.refl _, List.suffix_refl _, ?_⟩
      rw [hslen]
      rw [hslen] at hc
      omega
  obtain ⟨hsublist, hsuffix, hlen⟩ := hsub _ rfl
  refine ⟨Int.toNat_of_nonneg (by omega), hlen, ?_, ?_, ?_⟩
  · exact List.Pairwise.sublist hsublist (synLoop_pairwise now shocks T.toNat price 0)
  · intro p hp
    have hp2 := hsublist.subset hp
    obtain ⟨j, hj1, _, hj3⟩ := synLoop_ts_mem now shocks T.toNat price 0 p hp2
    rw [hj3]
    have : (0 : ℚ) ≤ (j : ℚ) * 60 := by positivity
    linarith
  · exact (synLoop_chain now shocks T.toNat price 0).suffix hsuffix

/-- Witness for backfill_empty_series at T = 3, now = 1000. -/
theorem backfill_empty_series_witness :
    ((fun _ => [] : HistMap) "USD" = [] ∧ (0 : ℤ) < 3) ∧
    (_ensure_history_for_windows "USD" 3 100 0 true (fun _ => 0) 1000
        (fun _ => [])).1 = 3 ∧
    ((_ensure_history_for_windows "USD" 3 100 0 true (fun _ => 0) 1000
        (fun _ => [])).2 "USD").length = min (3 : ℤ).toNat HISTORY_MAX :=
  ⟨⟨rfl, by norm_num⟩,
    (backfill_empty_series "USD" 3 100 0 1000 (fun _ => 0) (fun _ => [])
      rfl (by norm_num)).1,
    (backfill_empty_series "USD" 3 100 0 1000 (fun _ => 0) (fun _ => [])
      rfl (by norm_num)).2.1⟩

theorem runOut_result (r : TrendOut) (s : EngineState) (c : Bool) :
    (RunOut.mk r s c).result = r := rfl

theorem synLoop_filter_le (now cutoff : ℚ) (shocks : ℕ → ℚ) (M : ℕ)
    (hM : ∀ j : ℕ, M < j → now - (j : ℚ) * 60 < cutoff) :
    ∀ (i : ℕ) (base : ℚ) (k : ℕ),
      ((synLoop i now base shocks k).filter
          (fun p => decide (p.ts ≥ cutoff))).length ≤ i ∧
      ((synLoop i now base shocks k).filter
          (fun p => decide (p.ts ≥ cutoff))).length ≤ M
  | 0, _, _ => by simp [synLoop]
  | i + 1, base, k => by
      have IH := synLoop_filter_le now cutoff shocks M hM i
        (base * (1 + shocks k)) (k + 1)
      simp only [synLoop, List.filter_cons]
      split
      · rename_i hp
        have hp2 : now - ((i + 1 : ℕ) : ℚ) * 60 ≥ cutoff := of_decide_eq_true hp
        have hiM : i + 1 ≤ M := by
          by_contra hcon
          push_neg at hcon
          exact absurd hp2 (not_le.mpr (hM (i + 1) hcon))
        simp only [List.length_cons]
        omega
      · omega

theorem ensure_cons_eq (vs : String) (T : ℤ) (price pct now : ℚ)
    (shocks : ℕ → ℚ) (h : HistMap) (pt : HistPoint) (hsingle : h vs = [pt])
    (hT : 1 < T) :
    _ensure_history_for_windows vs T price pct true shocks now h
      = (((T - 1).toNat : ℤ), fun k => if k = vs then
          (if (synLoop (T - 1).toNat now pt.price shocks 0 ++ [pt]).length
              > HISTORY_MAX then
            (synLoop (T - 1).toNat now pt.price shocks 0 ++ [pt]).drop
              ((synLoop (T - 1).toNat now pt.price shocks 0 ++ [pt]).length
                - HISTORY_MAX)
          else synLoop (T - 1).toNat now pt.price shocks 0 ++ [pt])
          else h k) := by
  unfold _ensure_history_for_windows
  rw [hsingle]
  rw [if_neg (by simp; omega)]
  simp

theorem trend_after_quote_insufficient (vs : String)
    (lookback short_window long_window : ℤ) (thr : ℚ) (shocks : ℕ → ℚ)
    (tApp tSim tWin : ℚ) (spot : Quote) (cache : CacheMap) (history : HistMap)
    (called : Bool) (hlb : 5 ≤ lookback) (hlong : lookback + 1 < long_window)
    (hempty : history vs = []) (htime : tSim ≤ tWin) :
    ∃ a : ℕ, (_trend_after_quote vs lookback short_window long_window thr true
        shocks tApp tSim tWin spot cache history called).result
      = TrendOut.insufficient_history long_window a ∧ (a : ℤ) < long_window := by
  have h1 : _append_history vs spot.price tApp history vs
      = [⟨tApp, spot.price⟩] := by
    simp [_append_history, hempty, HISTORY_MAX]
  have htarget : max long_window (min lookback (HISTORY_MAX : ℤ)) = long_window :=
    max_eq_left (le_trans (min_le_left _ _) (by omega))
  have hE := ensure_cons_eq vs long_window spot.price spot.percent_change_24h
    tSim shocks (_append_history vs spot.price tApp history)
    ⟨tApp, spot.price⟩ h1 (by omega)
  simp only [_trend_after_quote, htarget, runOut_result]
  split
  · rename_i hlt
    exact ⟨_, rfl, hlt⟩
  · rename_i hnot
    exfalso
    apply hnot
    set s := synLoop (long_window - 1).toNat tSim
      (HistPoint.mk tApp spot.price).price shocks 0 with hs
    set full := s ++ [(⟨tApp, spot.price⟩ : HistPoint)] with hfull
    set X := (if full.length > HISTORY_MAX then
      full.drop (full.length - HISTORY_MAX) else full) with hX
    have hE2 : (_ensure_history_for_windows vs long_window spot.price
        spot.percent_change_24h true shocks tSim
        (_append_history vs spot.price tApp history)).2 vs = X := by
      rw [hE]
      simp
    rw [hE2]
    have hXsub : X.Sublist full := by
      rw [hX]
      by_cases hc : full.length > HISTORY_MAX
      · rw [if_pos hc]
        exact List.drop_sublist _ _
      · rw [if_neg hc]
    have hM : ∀ j : ℕ, lookback.toNat < j →
        tSim - (j : ℚ) * 60 < tWin - (lookback : ℚ) * 60 := by
      intro j hj
      have h6 : lookback + 1 ≤ (j : ℤ) := by omega
      have h7 : ((lookback : ℚ) + 1) ≤ (j : ℚ) := by exact_mod_cast h6
      nlinarith
    have hbound := (synLoop_filter_le tSim (tWin - (lookback : ℚ) * 60) shocks
      lookback.toNat hM (long_window - 1).toNat
      (HistPoint.mk tApp spot.price).price 0).2
    rw [← hs] at hbound
    have hfil : (X.filter (fun p => decide (p.ts ≥ tWin - (lookback : ℚ) * 60))).length
        ≤ lookback.toNat + 1 := by
      have h2 := (hXsub.filter
        (fun p => decide (p.ts ≥ tWin - (lookback : ℚ) * 60))).length_le
      rw [hfull, List.filter_append] at h2
      rw [List.length_append] at h2
      have h3 : ((([(⟨tApp, spot.price⟩ : HistPoint)]).filter
          (fun p => decide (p.ts ≥ tWin - (lookback : ℚ) * 60))).length) ≤ 1 :=
        List.length_filter_le _ _
      omega
    have hcast : ((lookback.toNat : ℕ) : ℤ) = lookback :=
      Int.toNat_of_nonneg (by omega)
    omega

/-- Claim C10: on a currency with empty history, when long_window exceeds the
clamped lookback plus one, the run still fails with insufficient_history even
with simulation permitted, because at most clamp(lookback) synthetic points
(plus the one appended real point) survive the lookback cutoff. -/
theorem simulate_can_still_fail (vs_currency : String)
    (lookback_minutes short_window long_window : ℤ)
    (neutral_threshold_bps : ℚ) (fetch : Except String Quote) (shocks : ℕ → ℚ)
    (tGet tSet tApp tSim tWin : ℚ) (st : EngineState)
    (hshort : 0 < short_window) (horder : short_window < long_window)
    (hlong : max 5 (min lookback_minutes 1440) + 1 < long_window)
    (hempty : st.history vs_currency.toUpper = [])
    (hquote : (resolvedQuote ("btc:" ++ vs_currency.toUpper) tGet st.cache
        fetch).isSome)
    (htime : tSim ≤ tWin) :
    ∃ a : ℕ, (get_btc_trend_signal vs_currency lookback_minutes short_window
        long_window neutral_threshold_bps true fetch shocks
        tGet tSet tApp tSim tWin st).result
      = TrendOut.insufficient_history long_window a ∧ (a : ℤ) < long_window := by
  unfold get_btc_trend_signal
  rw [if_neg (by omega), if_neg (by omega)]
  unfold resolvedQuote at hquote
  cases hget : _get_cached ("btc:" ++ vs_currency.toUpper) tGet st.cache with
  | none =>
      rw [hget] at hquote
      cases fetch with
      | error e => simp [Except.toOption] at hquote
      | ok spot =>
          simp only [hget]
          exact trend_after_quote_insufficient _ _ _ _ _ _ _ _ _ _ _ _ _
            (le_max_left _ _) hlong hempty htime
  | some spot =>
      simp only [hget]
      exact trend_after_quote_insufficient _ _ _ _ _ _ _ _ _ _ _ _ _
        (le_max_left _ _) hlong hempty htime

/-- Witness for simulate_can_still_fail: lookback 5 (clamped 5), long_window 7,
empty history, cache hit impossible but fetch succeeds; the run reports
insufficient_history. -/
theorem simulate_can_still_fail_witness :
    ((0 : ℤ) < 1 ∧ (1 : ℤ) < 7 ∧ max 5 (min (5 : ℤ) 1440) + 1 < 7 ∧
      (fun _ => [] : HistMap) "USD".toUpper = [] ∧
      (resolvedQuote ("btc:" ++ "USD".toUpper) 0 (fun _ => none)
        (Except.ok ⟨100, 0⟩)).isSome ∧ (0 : ℚ) ≤ 0) ∧
    ∃ a : ℕ, (get_btc_trend_signal "USD" 5 1 7 25 true (Except.ok ⟨100, 0⟩)
        (fun _ => 0) 0 0 0 0 0 ⟨fun _ => none, fun _ => []⟩).result
      = TrendOut.insufficient_history 7 a ∧ (a : ℤ) < 7 :=
  ⟨⟨by norm_num, by norm_num, by norm_num, rfl, rfl, le_refl 0⟩,
    simulate_can_still_fail "USD" 5 1 7 25 (Except.ok ⟨100, 0⟩) (fun _ => 0)
      0 0 0 0 0 ⟨fun _ => none, fun _ => []⟩ (by norm_num) (by norm_num)
      (by norm_num) rfl rfl (le_refl 0)⟩

end BtcTrend
